import Mathlib

/-!
Shallow embedding of the kilo text editor (src/main.go) and proofs about it.

Modelling conventions:
* Go `[]byte` becomes `List Nat` (each element a byte value 0..255).
* Go slices distinguish `nil` from an empty slice; lists cannot, so the
  source test `row.chars != nil` is rendered as `row.chars ≠ []`.
* Keys are modelled as `Nat` with the same numeric codes the source uses
  (`BackspaceKey = 127`, `ArrowLeft = 1001`, ..., `DeleteKey = 1009`).
* Places where the Go code would panic (nil-pointer dereference, index out
  of range) are modelled with `Option`, returning `none`; total list
  operations (`getD`, `set`, `eraseIdx`) are used where the surrounding
  guards make out-of-range access impossible at the call sites.
-/

namespace Kilo

def tabstop : Nat := 8

inductive Highlight
  | hlNormal
  | hlNumber
  | hlMatch
deriving DecidableEq, Repr

/-- Model of `Row` from main.go: raw bytes, rendered bytes, highlight tags. -/
structure Row where
  chars : List Nat
  render : List Nat
  hl : List Highlight
deriving DecidableEq, Repr

def defRow : Row := ⟨[], [], []⟩

/-- The inner `for len(r.render)%tabstop != 0` padding loop of `Row.Update`:
    append spaces until the length is a multiple of `tabstop`. -/
def tabPad (l : List Nat) : List Nat :=
  l ++ List.replicate ((tabstop - l.length % tabstop) % tabstop) 32

/-- One iteration of the render loop of `Row.Update`. -/
def renderStep (acc : List Nat) (b : Nat) : List Nat :=
  if b = 9 then tabPad (acc ++ [32]) else acc ++ [b]

/-- The rendered form computed by `Row.Update`. -/
def renderChars (chars : List Nat) : List Nat :=
  chars.foldl renderStep []

/-- The per-byte tag assigned by `Row.UpdateSyntax`. -/
def hlTag (c : Nat) : Highlight :=
  if 48 ≤ c ∧ c ≤ 57 then .hlNumber else .hlNormal

/-- Model of `Row.UpdateSyntax` from main.go: if `hl` is shorter than `render` it is
    reallocated to `render`'s length (zero value = Normal); then the first
    `render.length` entries are overwritten with digit/normal tags, any
    surplus entries beyond `render.length` keep their old values. -/
def Row.updateHl (r : Row) : Row :=
  let hl0 := if r.hl.length < r.render.length
             then List.replicate r.render.length Highlight.hlNormal
             else r.hl
  { r with hl := r.render.map hlTag ++ hl0.drop r.render.length }

/-- Model of `Row.Update` from main.go: recompute `render`, then `UpdateSyntax`. -/
def Row.update (r : Row) : Row :=
  Row.updateHl { r with render := renderChars r.chars }

/-- Model of `Row.Len` from main.go. -/
def Row.len (r : Row) : Nat := r.chars.length

/-- Model of `Row.Truncate` from main.go. -/
def Row.truncate (r : Row) (n : Nat) : Row :=
  if r.chars.length > n then Row.update { r with chars := r.chars.take n } else r

/-- Model of `Row.InsertChar` from main.go; `byte(c)` is `c % 256`. -/
def Row.insertChar (r : Row) (atIdx c : Nat) : Row :=
  let i := if atIdx > r.chars.length then r.chars.length else atIdx
  Row.update { r with chars := r.chars.insertIdx i (c % 256) }

/-- Model of `Row.DeleteChar` from main.go.  (At `atIdx = len` the Go code would
    panic inside `slices.Delete`; `eraseIdx` is a no-op there — the editor
    only calls this with `atIdx < len`.) -/
def Row.deleteChar (r : Row) (atIdx : Nat) : Row :=
  if atIdx > r.chars.length then r
  else Row.update { r with chars := r.chars.eraseIdx atIdx }

/-- Model of `Row.Append` from main.go. -/
def Row.append (r : Row) (chars : List Nat) : Row :=
  Row.update { r with chars := r.chars ++ chars }

/-- One step of `Row.CxToRx`: a tab advances to the next tab stop,
    anything else advances by one. -/
def rxStep (rx c : Nat) : Nat :=
  if c = 9 then rx + (tabstop - rx % tabstop) else rx + 1

/-- Model of `Row.CxToRx` from main.go (walks `chars[:cx]`). -/
def cxToRx (chars : List Nat) (cx : Nat) : Nat :=
  (chars.take cx).foldl rxStep 0

/-! ### Key codes (the `const` block of main.go) -/

def BackspaceKey : Nat := 127
def ArrowLeft : Nat := 1001
def ArrowRight : Nat := 1002
def ArrowUp : Nat := 1003
def ArrowDown : Nat := 1004
def PageUp : Nat := 1005
def PageDown : Nat := 1006
def HomeKey : Nat := 1007
def EndKey : Nat := 1008
def DeleteKey : Nat := 1009

/-! ### `editorReadKey`

The byte source is a list of read results: `some b` is a read that
delivered byte `b`, `none` is a read that timed out (`n != 1`). -/

/-- The initial retry loop of `editorReadKey`: keep reading until a byte
    arrives; `none` if the stream is exhausted first. -/
def firstRead : List (Option Nat) → Option (Nat × List (Option Nat))
  | [] => none
  | some b :: rest => some (b, rest)
  | none :: rest => firstRead rest

/-- Mapping for `seq[2] == '~'` for a CSI numeric parameter, including the
    third read (which may time out). -/
def csiTilde (s1 : Nat) : List (Option Nat) → Nat
  | [] => 27
  | none :: _ => 27
  | some s2 :: _ =>
    if s2 = 126 then
      if s1 = 51 then DeleteKey
      else if s1 = 53 then PageUp
      else if s1 = 54 then PageDown
      else if s1 = 49 ∨ s1 = 55 then HomeKey
      else if s1 = 52 ∨ s1 = 56 then EndKey
      else 27
    else 27

/-- The body of the escape decoder once two follow-up bytes `s0`, `s1` have
    been read, with `rest2` the remaining stream for the optional third
    read.  In the source, a digit parameter whose switch matches nothing
    falls through to the letter switch, where a digit matches nothing
    either — hence 27 in those branches. -/
def escBody (s0 s1 : Nat) (rest2 : List (Option Nat)) : Nat :=
  if s0 = 91 then
    if 48 ≤ s1 ∧ s1 ≤ 57 then csiTilde s1 rest2
    else
      if s1 = 65 then ArrowUp
      else if s1 = 66 then ArrowDown
      else if s1 = 67 then ArrowRight
      else if s1 = 68 then ArrowLeft
      else if s1 = 72 then HomeKey
      else if s1 = 70 then EndKey
      else 27
  else if s0 = 79 then
    if s1 = 72 then HomeKey
    else if s1 = 70 then EndKey
    else 27
  else 27

/-- Decoding of the bytes following an initial escape byte, as in
    `editorReadKey`.  An exhausted stream behaves like a timed-out read. -/
def escSeq : List (Option Nat) → Nat
  | [] => 27
  | none :: _ => 27
  | [some _] => 27
  | some _ :: none :: _ => 27
  | some s0 :: some s1 :: rest2 => escBody s0 s1 rest2

/-- Model of `editorReadKey` from main.go, over a finite stream of read results. -/
def editorReadKey (s : List (Option Nat)) : Option Nat :=
  match firstRead s with
  | none => none
  | some (c, rest) => if c = 27 then some (escSeq rest) else some c

/-! ### Editor state (the global `E` struct of main.go)

`termios`, `debug`/`status` timestamps and real I/O are outside the model;
`status`, `debug` and `filename` are byte strings. -/

structure EState where
  screenrows : Nat
  screencols : Nat
  cx : Nat
  cy : Nat
  rx : Nat
  numrows : Nat
  rowoff : Nat
  coloff : Nat
  rows : List Row
  debug : List Nat
  status : List Nat
  filename : List Nat
  dirty : Bool
deriving DecidableEq, Repr

/-- The zero value of `E` (before `initEditor`/`editorOpen`), with the
    screen dimensions supplied by `getWindowSize`. -/
def initState (screenrows screencols : Nat) : EState :=
  { screenrows := screenrows, screencols := screencols
    cx := 0, cy := 0, rx := 0, numrows := 0, rowoff := 0, coloff := 0
    rows := [], debug := [], status := [], filename := [], dirty := false }

/-- Replace row `i` by `f` of it; out of range leaves `rows` unchanged
    (in-range at every call site of the source). -/
def modifyRow (rows : List Row) (i : Nat) (f : Row → Row) : List Row :=
  rows.set i (f (rows.getD i defRow))

/-- Length `E.rows[i].Len()` of row `i`. -/
def rowLen (st : EState) (i : Nat) : Nat := (st.rows.getD i defRow).chars.length

/-- Model of `editorInsertRow` from main.go. -/
def editorInsertRow (st : EState) (atIdx : Nat) (chars : List Nat) : EState :=
  { st with rows := st.rows.insertIdx atIdx (Row.update ⟨chars, [], []⟩)
            numrows := st.numrows + 1
            dirty := true }

/-- Model of `editorDeleteRow` from main.go (the `at < 0` guard is vacuous for `Nat`). -/
def editorDeleteRow (st : EState) (atIdx : Nat) : EState :=
  if atIdx ≥ st.numrows then st
  else if st.cx = 0 ∧ st.cy = 0 then st
  else { st with rows := st.rows.eraseIdx atIdx
                 numrows := st.numrows - 1
                 dirty := true }

/-- Model of `editorInsertChar` from main.go. -/
def editorInsertChar (st : EState) (c : Nat) : EState :=
  let st := if st.cy = st.numrows then editorInsertRow st st.numrows [] else st
  let st := { st with rows := modifyRow st.rows st.cy (fun r => r.insertChar st.cx c) }
  { st with cx := st.cx + 1, dirty := true }

/-- Model of `editorDeleteChar` from main.go.  Note: the `cx > 0` branch does not
    touch the dirty flag (only `editorDeleteRow`, reached from the merge
    branch, sets it). -/
def editorDeleteChar (st : EState) : EState :=
  if st.cy = st.numrows then st
  else if st.cx = 0 ∧ st.cy = 0 then st
  else
    let row := st.rows.getD st.cy defRow
    if st.cx > 0 then
      { st with rows := modifyRow st.rows st.cy (fun r => r.deleteChar (st.cx - 1))
                cx := st.cx - 1 }
    else
      let st1 := { st with cx := (st.rows.getD (st.cy - 1) defRow).chars.length
                           rows := modifyRow st.rows (st.cy - 1) (fun r => r.append row.chars) }
      let st2 := editorDeleteRow st1 st.cy
      { st2 with cy := st2.cy - 1 }

/-- Model of `editorInsertNewline` from main.go.  In the `cx ≠ 0` branch the source
    indexes `E.rows[E.cy]` (panic when out of range, modelled by `none`)
    and slices `chars[E.cx:]` (modelled by `List.drop`). -/
def editorInsertNewline (st : EState) : Option EState :=
  if st.cx = 0 then
    let st := editorInsertRow st st.cy []
    some { st with cy := st.cy + 1, cx := 0 }
  else
    match st.rows.get? st.cy with
    | none => none
    | some row =>
      let st := editorInsertRow st (st.cy + 1) (row.chars.drop st.cx)
      let st := { st with rows := modifyRow st.rows st.cy (fun r => r.truncate st.cx) }
      some { st with cy := st.cy + 1, cx := 0 }

/-- The final clamp at the end of `editorMoveCursor` (only applied when
    `cy < numrows`). -/
def clampCx (st : EState) : EState :=
  if st.cy < st.numrows then
    if st.cx > rowLen st st.cy then { st with cx := rowLen st st.cy } else st
  else st

/-- Model of `editorMoveCursor` from main.go.  In the `ArrowRight` case with the
    cursor on the virtual past-end row, the source dereferences the nil
    `row` pointer (`row.chars != nil`) — modelled by `none`. -/
def editorMoveCursor (st : EState) (c : Nat) : Option EState :=
  let rowOpt : Option Row :=
    if st.cy < st.numrows then some (st.rows.getD st.cy defRow) else none
  let st? : Option EState :=
    if c = ArrowUp then
      some (if st.cy > 0 then { st with cy := st.cy - 1 } else st)
    else if c = ArrowDown then
      some (if st.cy < st.numrows then { st with cy := st.cy + 1 } else st)
    else if c = ArrowLeft then
      some (if st.cx > 0 then { st with cx := st.cx - 1 }
            else if st.cy > 0 then { st with cy := st.cy - 1, cx := rowLen st (st.cy - 1) }
            else st)
    else if c = ArrowRight then
      match rowOpt with
      | none => none
      | some row =>
        some (if row.chars ≠ [] ∧ st.cx < row.chars.length then { st with cx := st.cx + 1 }
              else if row.chars ≠ [] ∧ st.cx = row.chars.length then
                { st with cy := st.cy + 1, cx := 0 }
              else st)
    else some st
  st?.map clampCx

/-- Model of `editorScroll` from main.go.  (`CxToRx` slices `chars[:cx]`, which for
    `cx > len` reads beyond the slice length in Go — memory-dependent
    behaviour; the model totalises it with `List.take`.) -/
def editorScroll (st : EState) : EState :=
  let rx := if st.cy < st.numrows
            then cxToRx (st.rows.getD st.cy defRow).chars st.cx else 0
  let rowoff := if st.cy < st.rowoff then st.cy else st.rowoff
  let rowoff := if st.cy ≥ rowoff + st.screenrows then st.cy + 1 - st.screenrows else rowoff
  let coloff := if rx < st.coloff then rx else st.coloff
  let coloff := if rx ≥ coloff + st.screencols then rx + 1 - st.screencols else coloff
  { st with rx := rx, rowoff := rowoff, coloff := coloff }

/-- Model of `editorOpen` from main.go: one `editorInsertRow` per scanned line.
    File I/O is out of scope; the file's lines are a parameter. -/
def editorOpen (st : EState) (filename : List Nat) (lines : List (List Nat)) : EState :=
  lines.foldl (fun st l => editorInsertRow st st.numrows l)
    { st with filename := filename }

/-- Model of `writeRowsTo` from main.go: each row's raw bytes followed by a newline. -/
def writeRows (rows : List Row) : List Nat :=
  rows.foldl (fun acc r => acc ++ r.chars ++ [10]) []

/-! ### Search engine (`editorFind` / `editorPrompt`) -/

structure SearchMatch where
  cx : Nat
  cy : Nat
deriving DecidableEq, Repr

/-- Model of `bytes.Index`: index of the first occurrence of `needle` in `hay`. -/
def bIndex (hay needle : List Nat) : Option Nat :=
  (List.range (hay.length + 1)).find? (fun i => (hay.drop i).take needle.length = needle)

/-- The inner scan loop of the `editorFind` callback
    (`for off < len(chars)`): all match offsets in one row, advancing by
    `i + 1` past each hit.  The loop is embedded with explicit fuel; each
    iteration advances `off` by at least one, so `chars.length - off` fuel
    (as supplied by `scanRow`) always suffices. -/
def scanRowF (chars query : List Nat) : Nat → Nat → List Nat
  | _, 0 => []
  | off, fuel + 1 =>
    if off < chars.length then
      match bIndex (chars.drop off) query with
      | none => []
      | some i => (off + i) :: scanRowF chars query (off + i + 1) fuel
    else []

/-- The scan loop started at `off`. -/
def scanRow (chars query : List Nat) (off : Nat) : List Nat :=
  scanRowF chars query off (chars.length - off)

/-- All matches of `query` over the rows, in row order (as accumulated by
    the `for y, r := range E.rows` loop). -/
def allMatches (rows : List Row) (query : List Nat) : List SearchMatch :=
  rows.enum.flatMap fun p => (scanRow p.2.chars query 0).map fun off => ⟨off, p.1⟩

/-- Assignment `r.hl[x] = HighlightMatch` for `x` in `[start, start+n)` (the highlight
    loop of the callback); `List.set` ignores out-of-range writes, which
    are proved impossible below. -/
def setRange (hl : List Highlight) (start n : Nat) : List Highlight :=
  (List.range n).foldl (fun hl x => hl.set (start + x) Highlight.hlMatch) hl

/-- Per-row work of a re-scan: `r.UpdateSyntax()` (clearing old Match tags
    in the prefix), then tag every match's rendered range. -/
def searchTagRow (r : Row) (q : List Nat) : Row :=
  let r := r.updateHl
  (scanRow r.chars q 0).foldl
    (fun r off => { r with hl := setRange r.hl (cxToRx r.chars off) q.length }) r

/-- Correction of `matchidx` in the callback: negative values get the match
    count added, non-negative ones are reduced modulo it. -/
def fixMatchIdx (i : Int) (n : Nat) : Int :=
  if i < 0 then i + n else i % n

/-- The locals of `editorFind` (`matchidx`, `matches`) together with the
    editor state the callback closes over.  `crashed` records a Go panic
    (negative `matches` index after the correction). -/
structure FindState where
  st : EState
  matchidx : Int
  found : List SearchMatch   -- `matches` in the source (a Lean keyword)
  crashed : Bool
deriving DecidableEq, Repr

/-- The tail of the callback: if there are matches, fix `matchidx`, jump
    the cursor to the selected match and set `rowoff = numrows`. -/
def jumpToMatch (fs : FindState) : FindState :=
  if fs.found = [] then fs
  else
    let idx := fixMatchIdx fs.matchidx fs.found.length
    if idx < 0 then { fs with matchidx := idx, crashed := true }
    else
      let m := fs.found.getD idx.toNat ⟨0, 0⟩
      { fs with matchidx := idx
                st := { fs.st with cy := m.cy, cx := m.cx, rowoff := fs.st.numrows } }

/-- The `editorFind` callback. -/
def findCallback (input : List Nat) (c : Nat) (fs : FindState) : FindState :=
  if fs.crashed then fs
  else if c = 13 ∨ c = 27 then fs
  else if c = ArrowUp ∨ c = ArrowLeft then
    jumpToMatch { fs with matchidx := fs.matchidx - 1 }
  else if c = ArrowDown ∨ c = ArrowRight then
    jumpToMatch { fs with matchidx := fs.matchidx + 1 }
  else if input = [] then fs
  else
    jumpToMatch
      { fs with found := allMatches fs.st.rows input
                st := { fs.st with rows := fs.st.rows.map (fun r => searchTagRow r input) } }

/-- Format `"%s %s (ESC to cancel)"` with `[]byte` input, as a byte string. -/
def promptStatus (prompt input : List Nat) : List Nat :=
  prompt ++ [32] ++ input ++
    [32, 40, 69, 83, 67, 32, 116, 111, 32, 99, 97, 110, 99, 101, 108, 41]

/-- Text `"Search:"` as bytes. -/
def searchPromptText : List Nat := [83, 101, 97, 114, 99, 104, 58]

/-- Text `"Save as:"` as bytes. -/
def savePromptText : List Nat := [83, 97, 118, 101, 32, 97, 115, 58]

/-- Model of `editorPrompt` specialised to the `editorFind` callback, driven by a
    finite list of already-decoded keys.  Each iteration sets the status
    line and refreshes (scrolls); `none` means the key list ran out with
    the session still open (the real loop would block on `editorReadKey`).
    The result is `(input, ok)` as returned by `editorPrompt`, with the
    final callback state. -/
def findPromptRun : List Nat → List Nat → FindState →
    Option ((List Nat × Bool) × FindState)
  | keys, input, fs =>
    let stS := editorScroll { fs.st with status := promptStatus searchPromptText input }
    let fs := { fs with st := stS }
    match keys with
    | [] => none
    | c :: rest =>
      if c = DeleteKey ∨ c = 8 ∨ c = BackspaceKey then
        let input := if input ≠ [] then input.dropLast else input
        findPromptRun rest input (findCallback input c fs)
      else if c = 27 ∨ c = 17 then
        some (([], false), { fs with st := { fs.st with status := [] } })
      else if c = 13 then
        if input ≠ [] then
          some ((input, true),
                findCallback input c { fs with st := { fs.st with status := [] } })
        else findPromptRun rest input (findCallback input c fs)
      else
        let input := if 32 ≤ c ∧ c ≤ 126 then input ++ [c] else input
        findPromptRun rest input (findCallback input c fs)

/-- Model of `editorFind` from main.go: snapshot the cursor/viewport, run the
    prompt, restore on cancel, clear the debug line and all highlights. -/
def editorFind (st : EState) (keys : List Nat) : Option EState :=
  let saved := (st.cx, st.cy, st.rowoff, st.coloff)
  match findPromptRun keys [] ⟨st, 0, [], false⟩ with
  | none => none
  | some ((_, ok), fs) =>
    if fs.crashed then none
    else
      let st' := fs.st
      let st' := if ok then st'
                 else { st' with cx := saved.1, cy := saved.2.1
                                 rowoff := saved.2.2.1, coloff := saved.2.2.2 }
      some { st' with debug := []
                      rows := st'.rows.map Row.updateHl }

/-- Model of `editorPrompt` specialised to the save-as prompt (nil callback). -/
def savePromptRun : List Nat → List Nat → EState →
    Option ((List Nat × Bool) × EState)
  | keys, input, st =>
    let st := editorScroll { st with status := promptStatus savePromptText input }
    match keys with
    | [] => none
    | c :: rest =>
      if c = DeleteKey ∨ c = 8 ∨ c = BackspaceKey then
        let input := if input ≠ [] then input.dropLast else input
        savePromptRun rest input st
      else if c = 27 ∨ c = 17 then
        some (([], false), { st with status := [] })
      else if c = 13 then
        if input ≠ [] then some ((input, true), { st with status := [] })
        else savePromptRun rest input st
      else
        let input := if 32 ≤ c ∧ c ≤ 126 then input ++ [c] else input
        savePromptRun rest input st

/-- Text `"saved %s"` as bytes. -/
def savedMsg (filename : List Nat) : List Nat :=
  [115, 97, 118, 101, 100, 32] ++ filename

/-- Model of `editorSave` from main.go.  The file write either succeeds or the
    process dies (out of scope); on success the dirty flag is cleared. -/
def editorSave (st : EState) (script : List Nat) : Option EState :=
  if st.filename = [] then
    match savePromptRun script [] st with
    | none => none
    | some ((name, ok), st') =>
      if ok then
        some { st' with filename := name, dirty := false, status := savedMsg name }
      else some st'
  else some { st with dirty := false, status := savedMsg st.filename }

/-! ### Editor controller (`editorProcessKeypress` and the main loop) -/

/-- Model of `editorProcessKeypress` from main.go, on an already-decoded key `c`.
    `script` supplies the keys consumed by an interactive prompt session
    (save-as or search); it is unused for all other keys. -/
def editorProcessKeypress (st : EState) (c : Nat) (script : List Nat) : Option EState :=
  if c = 17 then some (editorScroll st)     -- Ctrl-Q: refresh, restore, exit
  else if c = 19 then editorSave st script  -- Ctrl-S
  else if c = 6 then editorFind st script   -- Ctrl-F
  else if c = ArrowUp ∨ c = ArrowDown ∨ c = ArrowLeft ∨ c = ArrowRight then
    editorMoveCursor st c
  else if c = PageUp then
    let st := { st with cy := st.rowoff }
    (List.range st.screenrows).foldl
      (fun o _ => o.bind (fun s => editorMoveCursor s ArrowUp)) (some st)
  else if c = PageDown then
    let cy := st.rowoff + st.screenrows - 1
    let st := { st with cy := if cy > st.numrows then st.numrows else cy }
    (List.range st.screenrows).foldl
      (fun o _ => o.bind (fun s => editorMoveCursor s ArrowDown)) (some st)
  else if c = HomeKey then some { st with cx := 0 }
  else if c = EndKey then
    some (if st.cy < st.numrows then { st with cx := rowLen st st.cy } else st)
  else if c = 13 then editorInsertNewline st
  else if c = DeleteKey then (editorMoveCursor st ArrowRight).map editorDeleteChar
  else if c = 8 ∨ c = BackspaceKey then some (editorDeleteChar st)
  else if c = 12 ∨ c = 27 then some st     -- Ctrl-L / Escape: ignored
  else some (editorInsertChar st c)

/-- One turn of the main loop: `editorRefreshScreen` (whose state effect is
    `editorScroll`) followed by `editorProcessKeypress`. -/
def editorStep (st : EState) (op : Nat × List Nat) : Option EState :=
  editorProcessKeypress (editorScroll st) op.1 op.2

/-- Run a sequence of main-loop turns. -/
def editorRun (st : EState) (ops : List (Nat × List Nat)) : Option EState :=
  ops.foldl (fun o op => o.bind (fun s => editorStep s op)) (some st)

/-! ## Basic row lemmas -/

/-- Lemma: `Row.UpdateSyntax` never shrinks `hl`: afterwards `hl` is at least as
    long as `render`. -/
theorem updateHl_hl_ge (r : Row) :
    (Row.updateHl r).render.length ≤ (Row.updateHl r).hl.length := by
  simp only [Row.updateHl, List.length_append, List.length_map, List.length_drop]
  omega

/-- After `Row.Update`, `hl` is at least as long as `render`. -/
theorem update_hl_ge (r : Row) :
    (Row.update r).render.length ≤ (Row.update r).hl.length :=
  updateHl_hl_ge _

/-! ## C9 -/

/-- C9: a row whose raw content is a single tab byte renders to exactly 8
    space bytes, and `CxToRx` at `cx = 1` returns 8. -/
theorem tab_render_c9 :
    (Row.update ⟨[9], [], []⟩).render = List.replicate 8 32 ∧ cxToRx [9] 1 = 8 := by
  decide

/-! ## C2 -/

/-- C2 counterexample: for the row `"ab"` (freshly updated, so `hl` has
    length 2), deleting the byte at index 1 leaves `render` with length 1
    but `hl` still with length 2 — the claimed equality fails. -/
theorem hl_len_eq_fails_c2 :
    ¬ (((Row.update ⟨[97, 98], [], []⟩).deleteChar 1).hl.length
       = ((Row.update ⟨[97, 98], [], []⟩).deleteChar 1).render.length) := by
  decide

/-- C2 amended: after any row mutation (insert, delete, truncate, append)
    starting from a row whose highlight array is at least as long as its
    rendered array, the highlight array remains at least as long as the
    rendered array (one tag per rendered byte, possibly with stale surplus
    tags beyond the rendered length). -/
theorem row_mutations_hl_ge_c2 (r : Row) (n atIdx c : Nat) (bs : List Nat)
    (hr : r.render.length ≤ r.hl.length) :
    ((r.insertChar atIdx c).render.length ≤ (r.insertChar atIdx c).hl.length)
    ∧ ((r.deleteChar atIdx).render.length ≤ (r.deleteChar atIdx).hl.length)
    ∧ ((r.truncate n).render.length ≤ (r.truncate n).hl.length)
    ∧ ((r.append bs).render.length ≤ (r.append bs).hl.length) := by
  refine ⟨update_hl_ge _, ?_, ?_, update_hl_ge _⟩
  · unfold Row.deleteChar
    split
    · exact hr
    · exact update_hl_ge _
  · unfold Row.truncate
    split
    · exact update_hl_ge _
    · exact hr

/-- Witness for C2's amended theorem at a concrete row. -/
theorem row_mutations_hl_ge_c2_witness :
    ((Row.update ⟨[97], [], []⟩).render.length ≤ (Row.update ⟨[97], [], []⟩).hl.length)
    ∧ (((Row.update ⟨[97], [], []⟩).insertChar 0 98).render.length
        ≤ ((Row.update ⟨[97], [], []⟩).insertChar 0 98).hl.length) := by
  refine ⟨by decide, (row_mutations_hl_ge_c2 (Row.update ⟨[97], [], []⟩) 0 0 98 [99]
    (by decide)).1⟩

/-! ## C1 -/

/-- C1 failing input: opening a one-line file (`"a"`) with no subsequent
    edits leaves the dirty flag `true` — `editorInsertRow` sets it for
    every loaded line and `editorOpen` never resets it — although the
    claim (and the spec's definition of the dirty flag) requires `false`
    immediately after opening. -/
theorem dirty_after_open_c1 :
    (editorOpen (initState 22 80) [102] [[97]]).dirty = true := by decide

/-! ## C5 -/

set_option maxHeartbeats 2000000 in
/-- C5: decoding of input streams starting with the escape byte 0x1B:
    a timeout on either follow-up read yields the bare escape byte; CSI
    parameter sequences terminated by `~` map 3/5/6/{1,7}/{4,8} to
    Delete/PageUp/PageDown/Home/End; CSI letters A/B/C/D/H/F map to
    Up/Down/Right/Left/Home/End; SS3 maps H/F to Home/End; every other
    sequence yields the bare escape byte. -/
theorem readKey_escape_c5 :
    (∀ rest, editorReadKey (some 27 :: none :: rest) = some 27)
    ∧ (∀ b rest, editorReadKey (some 27 :: some b :: none :: rest) = some 27)
    ∧ (∀ rest, editorReadKey (some 27 :: some 91 :: some 51 :: some 126 :: rest)
        = some DeleteKey)
    ∧ (∀ rest, editorReadKey (some 27 :: some 91 :: some 53 :: some 126 :: rest)
        = some PageUp)
    ∧ (∀ rest, editorReadKey (some 27 :: some 91 :: some 54 :: some 126 :: rest)
        = some PageDown)
    ∧ (∀ rest, editorReadKey (some 27 :: some 91 :: some 49 :: some 126 :: rest)
        = some HomeKey)
    ∧ (∀ rest, editorReadKey (some 27 :: some 91 :: some 55 :: some 126 :: rest)
        = some HomeKey)
    ∧ (∀ rest, editorReadKey (some 27 :: some 91 :: some 52 :: some 126 :: rest)
        = some EndKey)
    ∧ (∀ rest, editorReadKey (some 27 :: some 91 :: some 56 :: some 126 :: rest)
        = some EndKey)
    ∧ (∀ rest, editorReadKey (some 27 :: some 91 :: some 65 :: rest) = some ArrowUp)
    ∧ (∀ rest, editorReadKey (some 27 :: some 91 :: some 66 :: rest) = some ArrowDown)
    ∧ (∀ rest, editorReadKey (some 27 :: some 91 :: some 67 :: rest) = some ArrowRight)
    ∧ (∀ rest, editorReadKey (some 27 :: some 91 :: some 68 :: rest) = some ArrowLeft)
    ∧ (∀ rest, editorReadKey (some 27 :: some 91 :: some 72 :: rest) = some HomeKey)
    ∧ (∀ rest, editorReadKey (some 27 :: some 91 :: some 70 :: rest) = some EndKey)
    ∧ (∀ rest, editorReadKey (some 27 :: some 79 :: some 72 :: rest) = some HomeKey)
    ∧ (∀ rest, editorReadKey (some 27 :: some 79 :: some 70 :: rest) = some EndKey)
    ∧ (∀ s0 s1 rest, s0 ≠ 91 → s0 ≠ 79 →
        editorReadKey (some 27 :: some s0 :: some s1 :: rest) = some 27)
    ∧ (∀ s1 rest, s1 ≠ 72 → s1 ≠ 70 →
        editorReadKey (some 27 :: some 79 :: some s1 :: rest) = some 27)
    ∧ (∀ s1 rest, ¬(48 ≤ s1 ∧ s1 ≤ 57) → s1 ≠ 65 → s1 ≠ 66 → s1 ≠ 67 → s1 ≠ 68 →
        s1 ≠ 72 → s1 ≠ 70 →
        editorReadKey (some 27 :: some 91 :: some s1 :: rest) = some 27)
    ∧ (∀ s1 s2 rest, 48 ≤ s1 → s1 ≤ 57 → s2 ≠ 126 →
        editorReadKey (some 27 :: some 91 :: some s1 :: some s2 :: rest) = some 27)
    ∧ (∀ s1 rest, 48 ≤ s1 → s1 ≤ 57 →
        editorReadKey (some 27 :: some 91 :: some s1 :: none :: rest) = some 27)
    ∧ (∀ s1 rest, 48 ≤ s1 → s1 ≤ 57 → s1 ≠ 49 → s1 ≠ 51 → s1 ≠ 52 → s1 ≠ 53 →
        s1 ≠ 54 → s1 ≠ 55 → s1 ≠ 56 →
        editorReadKey (some 27 :: some 91 :: some s1 :: some 126 :: rest) = some 27) := by
  refine ⟨fun rest => rfl, fun b rest => rfl,
    fun rest => rfl, fun rest => rfl, fun rest => rfl, fun rest => rfl,
    fun rest => rfl, fun rest => rfl, fun rest => rfl, fun rest => rfl,
    fun rest => rfl, fun rest => rfl, fun rest => rfl, fun rest => rfl,
    fun rest => rfl, fun rest => rfl, fun rest => rfl, ?_, ?_, ?_, ?_, ?_, ?_⟩
  · intro s0 s1 rest h91 h79
    simp only [editorReadKey, firstRead, escSeq, escBody]
    split_ifs <;> first | rfl | omega
  · intro s1 rest h72 h70
    simp only [editorReadKey, firstRead, escSeq, escBody]
    split_ifs <;> first | rfl | omega
  · intro s1 rest hdig h65 h66 h67 h68 h72 h70
    simp only [editorReadKey, firstRead, escSeq, escBody]
    split_ifs <;> first | rfl | (exfalso; omega)
  · intro s1 s2 rest h48 h57 h126
    simp only [editorReadKey, firstRead, escSeq, escBody, csiTilde]
    split_ifs <;> first | rfl | omega
  · intro s1 rest h48 h57
    simp only [editorReadKey, firstRead, escSeq, escBody, csiTilde]
    split_ifs <;> first | rfl | omega
  · intro s1 rest h48 h57 h49 h51 h52 h53 h54 h55 h56
    simp only [editorReadKey, firstRead, escSeq, escBody, csiTilde]
    split_ifs <;> first | rfl | omega

/-- Witness for C5: instantiations of the hypothesis-bearing conjuncts at
    concrete bytes, via the theorem itself. -/
theorem readKey_escape_c5_witness :
    editorReadKey [some 27, some 88, some 65] = some 27
    ∧ editorReadKey [some 27, some 79, some 90] = some 27
    ∧ editorReadKey [some 27, some 91, some 122] = some 27
    ∧ editorReadKey [some 27, some 91, some 53, some 65] = some 27
    ∧ editorReadKey [some 27, some 91, some 53, none] = some 27
    ∧ editorReadKey [some 27, some 91, some 50, some 126] = some 27 := by
  obtain ⟨-, -, -, -, -, -, -, -, -, -, -, -, -, -, -, -, -,
    h18, h19, h20, h21, h22, h23⟩ := readKey_escape_c5
  exact ⟨h18 88 65 [] (by decide) (by decide),
    h19 90 [] (by decide) (by decide),
    h20 122 [] (by decide) (by decide) (by decide) (by decide) (by decide)
      (by decide) (by decide),
    h21 53 65 [] (by decide) (by decide) (by decide),
    h22 53 [] (by decide) (by decide),
    h23 50 [] (by decide) (by decide) (by decide) (by decide) (by decide)
      (by decide) (by decide) (by decide) (by decide)⟩

/-! ## C3 -/

/-- C3 counterexample: byte 1 (Ctrl-A, a non-printable control byte with no
    assigned action) is not ignored — the dispatch default inserts it: the
    document gains a row, the cursor advances and the dirty flag is set. -/
theorem ctrlA_not_ignored_c3 :
    editorProcessKeypress (initState 22 80) 1 []
      = some (editorInsertChar (initState 22 80) 1)
    ∧ (editorInsertChar (initState 22 80) 1).dirty = true
    ∧ (editorInsertChar (initState 22 80) 1).cx = 1
    ∧ (editorInsertChar (initState 22 80) 1).numrows = 1
    ∧ (initState 22 80).dirty = false
    ∧ (initState 22 80).cx = 0
    ∧ (initState 22 80).numrows = 0 := by decide

/-- C3 amended: every decoded key with no assigned dispatch action — whether
    printable or not — falls through to `editorInsertChar`; only Ctrl-L and
    Escape are explicitly ignored, leaving the state unchanged. -/
theorem unhandled_key_inserts_c3 (st : EState) (c : Nat) (script : List Nat)
    (h : c ∉ ([17, 19, 6, ArrowUp, ArrowDown, ArrowLeft, ArrowRight, PageUp,
               PageDown, HomeKey, EndKey, 13, DeleteKey, 8, BackspaceKey,
               12, 27] : List Nat)) :
    editorProcessKeypress st c script = some (editorInsertChar st c)
    ∧ editorProcessKeypress st 12 script = some st
    ∧ editorProcessKeypress st 27 script = some st := by
  simp only [List.mem_cons, List.not_mem_nil, or_false, not_or] at h
  obtain ⟨h17, h19, h6, hau, had, hal, har, hpu, hpd, hhk, hek, h13, hdk,
    h8, hbk, h12, h27⟩ := h
  refine ⟨?_, ?_, ?_⟩
  · simp [editorProcessKeypress, h17, h19, h6, hau, had, hal, har, hpu, hpd,
      hhk, hek, h13, hdk, h8, hbk, h12, h27]
  · simp [editorProcessKeypress, ArrowUp, ArrowDown, ArrowLeft, ArrowRight,
      PageUp, PageDown, HomeKey, EndKey, DeleteKey, BackspaceKey]
  · simp [editorProcessKeypress, ArrowUp, ArrowDown, ArrowLeft, ArrowRight,
      PageUp, PageDown, HomeKey, EndKey, DeleteKey, BackspaceKey]

/-- Witness for C3's amended theorem at the concrete unhandled byte 1. -/
theorem unhandled_key_inserts_c3_witness :
    editorProcessKeypress (initState 22 80) 1 [97]
      = some (editorInsertChar (initState 22 80) 1)
    ∧ editorProcessKeypress (initState 22 80) 12 [97] = some (initState 22 80)
    ∧ editorProcessKeypress (initState 22 80) 27 [97] = some (initState 22 80) :=
  unhandled_key_inserts_c3 (initState 22 80) 1 [97] (by decide)

/-! ## C4 -/

/-- C4 failing input, evaluated on the code: open a one-row file `"abc"`,
    press End then ArrowDown — the cursor lands on the virtual past-end row
    with `cx = 3`, where the claim requires `cx = 0` (the final clamp of
    `editorMoveCursor` only runs when `cy < numrows`).  Then typing `'x'`
    yields `cx = 4 > 1 = rowLen` on a real row (`cy < numrows`), violating
    the clamp invariant outright. -/
theorem cursor_clamp_violation_c4 :
    ((editorRun (editorOpen (initState 22 80) [102] [[97, 98, 99]])
        [(EndKey, []), (ArrowDown, [])]).map
        (fun st => (st.cx, st.cy, st.numrows)) = some (3, 1, 1))
    ∧ ((editorRun (editorOpen (initState 22 80) [102] [[97, 98, 99]])
        [(EndKey, []), (ArrowDown, []), (120, [])]).map
        (fun st => (st.cx, st.cy, st.numrows, rowLen st st.cy))
        = some (4, 1, 2, 1)) := by decide

/-! ## List helper lemmas (index arithmetic at an append boundary) -/

theorem insertIdx_append_len {α : Type} (l1 : List α) (k : Nat) (x : α) (l2 : List α) :
    (l1 ++ l2).insertIdx (l1.length + k) x = l1 ++ l2.insertIdx k x := by
  induction l1 with
  | nil => simp
  | cons a l ih =>
    simp only [List.cons_append, List.length_cons, Nat.succ_add,
      List.insertIdx_succ_cons, ih]

theorem set_append_len {α : Type} (l1 : List α) (k : Nat) (x : α) (l2 : List α) :
    (l1 ++ l2).set (l1.length + k) x = l1 ++ l2.set k x := by
  induction l1 with
  | nil => simp
  | cons a l ih =>
    simp only [List.cons_append, List.length_cons, Nat.succ_add,
      List.set_cons_succ, ih]

theorem eraseIdx_append_len {α : Type} (l1 : List α) (k : Nat) (l2 : List α) :
    (l1 ++ l2).eraseIdx (l1.length + k) = l1 ++ l2.eraseIdx k := by
  induction l1 with
  | nil => simp
  | cons a l ih =>
    simp only [List.cons_append, List.length_cons, Nat.succ_add,
      List.eraseIdx_cons_succ, ih]

theorem getD_append_len {α : Type} (l1 : List α) (k : Nat) (d : α) (l2 : List α) :
    (l1 ++ l2).getD (l1.length + k) d = l2.getD k d := by
  induction l1 with
  | nil => simp
  | cons a l ih =>
    simpa [Nat.succ_add] using ih

theorem get?_append_len {α : Type} (l1 : List α) (k : Nat) (l2 : List α) :
    (l1 ++ l2).get? (l1.length + k) = l2.get? k := by
  induction l1 with
  | nil => simp
  | cons a l ih =>
    simpa [Nat.succ_add] using ih

theorem insertIdx_at_len {α : Type} (l1 : List α) (x : α) (l2 : List α) :
    (l1 ++ l2).insertIdx l1.length x = l1 ++ x :: l2 := by
  simpa using insertIdx_append_len l1 0 x l2

theorem insertIdx_at_len_succ {α : Type} (l1 : List α) (b x : α) (l2 : List α) :
    (l1 ++ b :: l2).insertIdx (l1.length + 1) x = l1 ++ b :: x :: l2 := by
  simpa [List.insertIdx_succ_cons] using insertIdx_append_len l1 1 x (b :: l2)

theorem set_at_len {α : Type} (l1 : List α) (b x : α) (l2 : List α) :
    (l1 ++ b :: l2).set l1.length x = l1 ++ x :: l2 := by
  simpa using set_append_len l1 0 x (b :: l2)

theorem getD_at_len {α : Type} (l1 : List α) (b d : α) (l2 : List α) :
    (l1 ++ b :: l2).getD l1.length d = b := by
  simpa using getD_append_len l1 0 d (b :: l2)

theorem getD_at_len_succ {α : Type} (l1 : List α) (a b d : α) (l2 : List α) :
    (l1 ++ a :: b :: l2).getD (l1.length + 1) d = b := by
  simpa using getD_append_len l1 1 d (a :: b :: l2)

theorem eraseIdx_at_len_succ {α : Type} (l1 : List α) (a b : α) (l2 : List α) :
    (l1 ++ a :: b :: l2).eraseIdx (l1.length + 1) = l1 ++ a :: l2 := by
  simpa [List.eraseIdx] using eraseIdx_append_len l1 1 (a :: b :: l2)

theorem get?_at_len {α : Type} (l1 : List α) (b : α) (l2 : List α) :
    (l1 ++ b :: l2).get? l1.length = some b := by
  simpa using get?_append_len l1 0 (b :: l2)

/-! ## Row projection lemmas -/

@[simp] theorem update_chars (r : Row) : (Row.update r).chars = r.chars := rfl

@[simp] theorem updateHl_chars (r : Row) : (Row.updateHl r).chars = r.chars := rfl

@[simp] theorem append_chars (r : Row) (bs : List Nat) :
    (r.append bs).chars = r.chars ++ bs := rfl

theorem truncate_chars (r : Row) (n : Nat) (h : n ≤ r.chars.length) :
    (r.truncate n).chars = r.chars.take n := by
  unfold Row.truncate
  split
  · rfl
  · exact (List.take_of_length_le (by omega)).symm

/-! ## C6 -/

/-- C6: splitting a row with `editorInsertNewline` (cursor at `(cy, at)`,
    `at ≤ len`) leaves the cursor at the start of the resulting next row,
    and a backspace (`editorDeleteChar`) there restores the original rows'
    raw contents and the original row count. -/
theorem newline_backspace_c6 (st : EState) (l1 l2 : List Row) (r : Row)
    (hrows : st.rows = l1 ++ r :: l2) (hcy : st.cy = l1.length)
    (hcx : st.cx ≤ r.chars.length) (hnum : st.numrows = st.rows.length) :
    (editorInsertNewline st).map
        (fun st1 => (st1.cy, st1.cx, (editorDeleteChar st1).rows.map Row.chars,
                     (editorDeleteChar st1).numrows))
      = some (st.cy + 1, 0, st.rows.map Row.chars, st.numrows) := by
  obtain ⟨sr, sc, cx, cy, rx, nr, ro, co, rows, dbg, stt, fn, dt⟩ := st
  simp only at hrows hcy hcx hnum ⊢
  subst hrows hcy hnum
  by_cases hc0 : cx = 0
  · subst hc0
    simp only [editorInsertNewline, editorInsertRow, if_true, eq_self_iff_true]
    simp only [Option.map_some, Option.map_some', insertIdx_at_len,
      editorDeleteChar, editorDeleteRow, modifyRow, List.length_append,
      List.length_cons, Nat.add_sub_cancel]
    rw [if_neg (by omega), if_neg (by simp), if_neg (by simp)]
    simp only [getD_at_len_succ, getD_at_len, set_at_len, Nat.add_sub_cancel]
    rw [if_neg (by omega), if_neg (by simp)]
    simp only [eraseIdx_at_len_succ]
    simp [Row.append]
  · simp only [editorInsertNewline, editorInsertRow]
    rw [if_neg hc0]
    simp only [get?_at_len, insertIdx_at_len_succ, Option.map_some,
      Option.map_some', editorDeleteChar, editorDeleteRow, modifyRow,
      List.length_append, List.length_cons, getD_at_len, set_at_len,
      Nat.add_sub_cancel]
    rw [if_neg (by omega), if_neg (by simp), if_neg (by simp)]
    simp only [getD_at_len_succ, getD_at_len, set_at_len, Nat.add_sub_cancel]
    rw [if_neg (by omega), if_neg (by simp)]
    simp only [eraseIdx_at_len_succ]
    simp [truncate_chars _ _ hcx, Row.append]

/-! ## Render length vs cxToRx -/

/-- One render step grows the rendered length exactly as `rxStep` advances
    the rendered column. -/
theorem renderStep_length (acc : List Nat) (b : Nat) :
    (renderStep acc b).length = rxStep acc.length b := by
  unfold renderStep rxStep tabPad tabstop
  split
  · simp only [List.length_append, List.length_replicate, List.length_cons,
      List.length_nil]
    omega
  · simp

theorem foldl_renderStep_length (l : List Nat) (acc : List Nat) :
    (l.foldl renderStep acc).length = l.foldl rxStep acc.length := by
  induction l generalizing acc with
  | nil => rfl
  | cons b t ih => simp only [List.foldl_cons, renderStep_length, ih]

/-- Every byte advances the rendered column by at least one. -/
theorem foldl_rxStep_ge (l : List Nat) (rx : Nat) :
    rx + l.length ≤ l.foldl rxStep rx := by
  induction l generalizing rx with
  | nil => simp
  | cons b t ih =>
    simp only [List.foldl_cons, List.length_cons]
    have h1 : rx + (t.length + 1) ≤ rxStep rx b + t.length := by
      unfold rxStep tabstop
      split <;> omega
    exact h1.trans (ih (rxStep rx b))

/-- If at least `k` raw bytes follow position `off`, then the rendered row
    is at least `k` bytes longer than the rendered column of `off`. -/
theorem cxToRx_add_le (chars : List Nat) (off k : Nat) (h : off + k ≤ chars.length) :
    cxToRx chars off + k ≤ (renderChars chars).length := by
  have hsplit : chars.take off ++ chars.drop off = chars := List.take_append_drop off chars
  have hlen : (renderChars chars).length = chars.foldl rxStep 0 := by
    simpa using foldl_renderStep_length chars []
  rw [hlen, ← hsplit, List.foldl_append]
  have h2 := foldl_rxStep_ge (chars.drop off) ((chars.take off).foldl rxStep 0)
  have h3 : (chars.drop off).length = chars.length - off := List.length_drop off chars
  have h4 : cxToRx chars off = (chars.take off).foldl rxStep 0 := rfl
  rw [List.take_append_drop] at *
  omega

/-- If `bIndex` finds `needle` at `i`, the occurrence fits inside `hay`. -/
theorem bIndex_some_le (hay needle : List Nat) (i : Nat)
    (h : bIndex hay needle = some i) : i + needle.length ≤ hay.length := by
  have hp := List.find?_some h
  have htk : (hay.drop i).take needle.length = needle := by
    simpa using hp
  have hmem : i < hay.length + 1 := by
    simpa using List.mem_of_find?_eq_some h
  have hlen := congrArg List.length htk
  simp only [List.length_take, List.length_drop] at hlen
  omega

/-- Every offset produced by the scan loop leaves room for the query before
    the end of the row. -/
theorem scanRowF_le (chars query : List Nat) :
    ∀ fuel off m, m ∈ scanRowF chars query off fuel →
      m + query.length ≤ chars.length := by
  intro fuel
  induction fuel with
  | zero =>
    intro off m hm
    simp [scanRowF] at hm
  | succ n ih =>
    intro off m hm
    rw [scanRowF] at hm
    by_cases hlt : off < chars.length
    · rw [if_pos hlt] at hm
      cases hbi : bIndex (chars.drop off) query with
      | none => rw [hbi] at hm; simp at hm
      | some i =>
        rw [hbi] at hm
        have hle := bIndex_some_le (chars.drop off) query i hbi
        simp only [List.length_drop] at hle
        rcases List.mem_cons.mp hm with rfl | hm'
        · omega
        · exact ih (off + i + 1) m hm'
    · rw [if_neg hlt] at hm
      simp at hm

theorem scanRow_le (chars query : List Nat) (off m : Nat)
    (hm : m ∈ scanRow chars query off) : m + query.length ≤ chars.length :=
  scanRowF_le chars query (chars.length - off) off m hm

/-! ## C10 -/

/-- C10: (a) after every `Row.Update` the highlight array is at least as
    long as the rendered array; (b) hence every renderer access
    `row.hl[i + coloff]` with `i + coloff` inside the rendered slice is in
    bounds; (c) for a row whose render is in sync with its raw bytes, every
    tagged range `[rx, rx + len(query))` of a match found by the scan loop
    lies inside the highlight array of the `UpdateSyntax`-refreshed row. -/
theorem highlight_access_c10 :
    (∀ r : Row, (Row.update r).render.length ≤ (Row.update r).hl.length)
    ∧ (∀ (r : Row) (i coloff : Nat),
        i + coloff < (Row.update r).render.length →
        i + coloff < (Row.update r).hl.length)
    ∧ (∀ (r : Row) (q : List Nat) (m : Nat),
        r.render = renderChars r.chars →
        m ∈ scanRow r.chars q 0 →
        cxToRx r.chars m + q.length ≤ (Row.updateHl r).hl.length) := by
  refine ⟨update_hl_ge, fun r i coloff h => lt_of_lt_of_le h (update_hl_ge r), ?_⟩
  intro r q m hrender hm
  have h1 : m + q.length ≤ r.chars.length :=
    scanRow_le r.chars q 0 m hm
  have h2 : cxToRx r.chars m + q.length ≤ (renderChars r.chars).length :=
    cxToRx_add_le r.chars m q.length h1
  have h3 : (Row.updateHl r).render.length ≤ (Row.updateHl r).hl.length :=
    updateHl_hl_ge r
  have h4 : (Row.updateHl r).render = r.render := rfl
  rw [h4, hrender] at h3
  omega

/-- Witness for C10 at the row `"cat"` with query `"cat"`. -/
theorem highlight_access_c10_witness :
    (0 : Nat) + 1 < (Row.update ⟨[99, 97, 116], [], []⟩).hl.length
    ∧ cxToRx [99, 97, 116] 0 + 3 ≤ (Row.updateHl (Row.update ⟨[99, 97, 116], [], []⟩)).hl.length := by
  constructor
  · exact highlight_access_c10.2.1 ⟨[99, 97, 116], [], []⟩ 0 1 (by decide)
  · exact highlight_access_c10.2.2 (Row.update ⟨[99, 97, 116], [], []⟩) [99, 97, 116] 0
      (by decide) (by decide)

/-! ## C7 -/

/-- C7: searching `"cat"` in the document `["concatenate", "category",
    "dog"]` yields exactly the matches `(cx=3, cy=0)` and `(cx=0, cy=1)` in
    that order, and the cyclic index correction wraps an increment past the
    last match to the first and a decrement before the first to the last
    (both as raw `fixMatchIdx` and through the arrow cases of the
    `editorFind` callback). -/
theorem search_cat_c7 :
    allMatches (editorOpen (initState 22 80) [102]
        [[99, 111, 110, 99, 97, 116, 101, 110, 97, 116, 101],
         [99, 97, 116, 101, 103, 111, 114, 121],
         [100, 111, 103]]).rows [99, 97, 116]
      = [⟨3, 0⟩, ⟨0, 1⟩]
    ∧ fixMatchIdx (1 + 1) 2 = 0
    ∧ fixMatchIdx (0 - 1) 2 = 1
    ∧ (findCallback [99, 97, 116] ArrowRight
        ⟨initState 22 80, 1, [⟨3, 0⟩, ⟨0, 1⟩], false⟩).matchidx = 0
    ∧ (findCallback [99, 97, 116] ArrowUp
        ⟨initState 22 80, 0, [⟨3, 0⟩, ⟨0, 1⟩], false⟩).matchidx = 1 := by
  decide

/-! ## C8 -/

/-- A find-prompt session that returns `ok = false` ended in the
    Escape/Ctrl-Q branch, which clears the status line. -/
theorem findPromptRun_cancel_status (keys : List Nat) :
    ∀ input fs q fs', findPromptRun keys input fs = some ((q, false), fs') →
      fs'.st.status = [] := by
  induction keys with
  | nil =>
    intro input fs q fs' h
    rw [findPromptRun] at h
    simp at h
  | cons c rest ih =>
    intro input fs q fs' h
    rw [findPromptRun] at h
    split_ifs at h
    all_goals try exact ih _ _ _ _ h
    all_goals have hfs := Option.some.inj h
    all_goals rw [Prod.mk.injEq] at hfs
    all_goals
      try (have hp := hfs.1; rw [Prod.mk.injEq] at hp; exact Bool.noConfusion hp.2)
    all_goals rw [← hfs.2]
    all_goals rfl

/-- C8: a search session cancelled by Escape or Ctrl-Q (the prompt returned
    `ok = false`, and no Go panic occurred) restores the cursor and the
    viewport offsets snapshotted at session entry and leaves the status
    line cleared. -/
theorem find_cancel_restores_c8 (st : EState) (keys q : List Nat) (fs : FindState)
    (hrun : findPromptRun keys [] ⟨st, 0, [], false⟩ = some ((q, false), fs))
    (hcr : fs.crashed = false) :
    ∃ st', editorFind st keys = some st'
      ∧ st'.cx = st.cx ∧ st'.cy = st.cy ∧ st'.rowoff = st.rowoff
      ∧ st'.coloff = st.coloff ∧ st'.status = [] := by
  have hstat := findPromptRun_cancel_status keys [] ⟨st, 0, [], false⟩ q fs hrun
  unfold editorFind
  rw [hrun]
  simp [hcr, hstat]

/-- Witness for C8: a session over one row that is cancelled by the very
    first key (Escape). -/
theorem find_cancel_restores_c8_witness :
    ∃ st', editorFind (initState 5 10) [27] = some st'
      ∧ st'.cx = (initState 5 10).cx ∧ st'.cy = (initState 5 10).cy
      ∧ st'.rowoff = (initState 5 10).rowoff
      ∧ st'.coloff = (initState 5 10).coloff ∧ st'.status = [] :=
  find_cancel_restores_c8 (initState 5 10) [27] []
    ⟨{ editorScroll { (initState 5 10) with
         status := promptStatus searchPromptText [] } with status := [] },
      0, [], false⟩
    (by decide) (by decide)

/-- Witness for C6 at the concrete row `"ab"`, split at column 1. -/
theorem newline_backspace_c6_witness :
    (editorInsertNewline
        { screenrows := 22, screencols := 80, cx := 1, cy := 0, rx := 0,
          numrows := 1, rowoff := 0, coloff := 0,
          rows := [Row.update ⟨[97, 98], [], []⟩], debug := [], status := [],
          filename := [], dirty := false }).map
        (fun st1 => (st1.cy, st1.cx, (editorDeleteChar st1).rows.map Row.chars,
                     (editorDeleteChar st1).numrows))
      = some (1, 0, [[97, 98]], 1) := by
  have h := newline_backspace_c6
    { screenrows := 22, screencols := 80, cx := 1, cy := 0, rx := 0,
      numrows := 1, rowoff := 0, coloff := 0,
      rows := [Row.update ⟨[97, 98], [], []⟩], debug := [], status := [],
      filename := [], dirty := false }
    [] [] (Row.update ⟨[97, 98], [], []⟩) (by simp) (by simp) (by decide) (by decide)
  simpa using h

end Kilo
